import Mathlib

/-!
Verification of the two MoviePilot plugins in this repository:
`plugins/libraryscraper` (real-time library scraper with a directory
debounce set) and `plugins/subscribereminder` (daily subscription digest
notifier).  The Python code is shallowly embedded: pure fragments become
Lean functions, the debounce set becomes explicit state passing, outside
services (watchdog, MediaChain, TmdbChain, scheduler, filesystem) become
function parameters, and Python exceptions become `Except`.
-/

/-! ## Python string primitives, modelled structurally over `List Char` -/

/-- Drop leading whitespace characters (the one-sided part of `str.strip()`). -/
def stripLeft : List Char → List Char
  | [] => []
  | c :: cs => if c.isWhitespace then stripLeft cs else c :: cs

/-- Python `str.strip()`: remove leading and trailing whitespace. -/
def pyStrip (s : String) : String :=
  ⟨stripLeft (stripLeft s.data.reverse).reverse⟩

/-- Python `str.lower()` (ASCII case folding, as used by the config parser). -/
def pyLower (s : String) : String := ⟨s.data.map Char.toLower⟩

/-- Helper for `pySplitFirst`: scan for the first occurrence of `c`,
accumulating the characters already passed (in reverse). -/
def splitFirstAux (c : Char) : List Char → List Char → Option (List Char × List Char)
  | _, [] => none
  | acc, x :: xs => if x = c then some (acc.reverse, xs) else splitFirstAux c (x :: acc) xs

/-- Python `str.split(c, 1)` restricted to the case used by the code:
`none` when `c` does not occur, otherwise the parts before and after the
first occurrence. -/
def pySplitFirst (c : Char) (s : String) : Option (String × String) :=
  match splitFirstAux c [] s.data with
  | none => none
  | some (a, b) => some (⟨a⟩, ⟨b⟩)

/-- Helper for `splitChar`: split at every occurrence of `c`. -/
def splitCharAux (c : Char) : List Char → List Char → List String
  | acc, [] => [⟨acc.reverse⟩]
  | acc, x :: xs =>
    if x = c then ⟨acc.reverse⟩ :: splitCharAux c [] xs else splitCharAux c (x :: acc) xs

/-- Python `str.split(c)` for a single-character separator (always returns
at least one piece, like Python). -/
def splitChar (c : Char) (s : String) : List String := splitCharAux c [] s.data

/-- Python `str.isdigit()` (restricted to ASCII digits, the case the
plugin's numeric send-hour uses). -/
def pyIsDigit (s : String) : Bool := !s.data.isEmpty && s.data.all Char.isDigit

/-- Helper for `pyInt`: left-to-right accumulation of decimal digits. -/
def digitsToNat : List Char → Nat → Nat
  | [], acc => acc
  | c :: cs, acc => digitsToNat cs (acc * 10 + (c.toNat - '0'.toNat))

/-- Python `int(s)` on a string of decimal digits. -/
def pyInt (s : String) : Nat := digitsToNat s.data 0

/-- `MediaType` enum of the host (`app.schemas.types.MediaType`); only the
two constructors the plugins mention. -/
inductive MediaType where
  | movie
  | tv
deriving DecidableEq

/-- `pathlib.PurePath.is_relative_to`: paths are component lists, and `p`
is relative to `base` iff `base`'s components are an initial run of `p`'s. -/
def isRelativeTo : List String → List String → Bool
  | _, [] => true
  | [], _ :: _ => false
  | p :: ps, b :: bs => p == b && isRelativeTo ps bs

namespace LibraryScraper

/-! ### `LibraryEventHandler`: the pending-directory debounce set

`processed_paths` is modelled as a list of (directory, eviction time)
pairs; `background_task(10, discard)` becomes an expiry stamp `t + 10`,
and a timer having fired by time `t` is modelled by evicting every entry
whose stamp is `≤ t` before the event is examined. -/

/-- Entries whose eviction timer has not yet fired at time `t`. -/
def evictExpired (t : Nat) (pending : List (String × Nat)) : List (String × Nat) :=
  pending.filter (fun e => decide (t < e.2))

/-- Membership test of `dir_str in self.processed_paths`. -/
def inPending (d : String) (pending : List (String × Nat)) : Bool :=
  pending.any (fun e => e.1 == d)

/-- `LibraryEventHandler._process_directory` at time `t` for directory `d`:
returns the new pending set and whether a scrape attempt
(`handle_media_directory`) was triggered. -/
def processEvent (pending : List (String × Nat)) (t : Nat) (d : String) :
    List (String × Nat) × Bool :=
  if inPending d (evictExpired t pending) then (evictExpired t pending, false)
  else ((d, t + 10) :: evictExpired t pending, true)

/-- Fold a whole timed event trace through `processEvent`, returning the
final pending set. -/
def runState (pending : List (String × Nat)) : List (Nat × String) → List (String × Nat)
  | [] => pending
  | (t, d) :: rest => runState (processEvent pending t d).1 rest

/-! ### Filesystem model -/

/-- One directory entry as the plugin observes it: its extension
(`Path.suffix`), whether it is a regular file, and whether `open(f, 'rb')`
currently succeeds. -/
structure FileEntry where
  suffix : String
  isFile : Bool
  readable : Bool
deriving DecidableEq

/-- A directory: its path components and its entries (`Path.iterdir`). -/
structure DirState where
  path : List String
  files : List FileEntry
deriving DecidableEq

/-! ### `LibraryScraper` proper -/

/-- `LibraryScraper._is_excluded`: true when the path is nested under any
configured excluded path. -/
def _is_excluded (excludePaths : List (List String)) (p : List String) : Bool :=
  excludePaths.any (fun excl => isRelativeTo p excl)

/-- `LibraryScraper._check_files_ready`: every media file in the directory
must currently be openable; a failing `open` raises `IOError`, which the
method turns into `False`. -/
def _check_files_ready (mediaExts : List String) (dir : DirState) : Bool :=
  dir.files.all (fun f => !(f.isFile && mediaExts.contains (pyLower f.suffix)) || f.readable)

/-- The three ways one call of `handle_media_directory` can end. -/
inductive HandleAction where
  | skipExcluded
  | retryLater (delay : Nat)
  | scrape
deriving DecidableEq

/-- `LibraryScraper.handle_media_directory`, one invocation: excluded
directories are skipped, unready directories are rescheduled after 2 time
units, ready ones are scraped. -/
def handle_media_directory (excl : List (List String)) (mediaExts : List String)
    (dir : DirState) : HandleAction :=
  if _is_excluded excl dir.path then .skipExcluded
  else if !(_check_files_ready mediaExts dir) then .retryLater 2
  else .scrape

/-- The self-rescheduling loop of `handle_media_directory`: invocation `k`
sees the directory in state `dirAt k` at time `t`; a retry re-enters after
its delay.  Returns the (invocation index, time) of the scrape, if the
fuel suffices to reach one. -/
def handleChain (excl : List (List String)) (mediaExts : List String)
    (dirAt : Nat → DirState) : Nat → Nat → Nat → Option (Nat × Nat)
  | _, _, 0 => none
  | k, t, fuel + 1 =>
    match handle_media_directory excl mediaExts (dirAt k) with
    | .skipExcluded => none
    | .retryLater d => handleChain excl mediaExts dirAt (k + 1) (t + d) fuel
    | .scrape => some (k, t)

/-! ### Media identification and scraping -/

/-- Opaque payload of a recognized media identity (`MediaInfo` of the host). -/
structure MediaInfo where
  mediaId : Nat
deriving DecidableEq

/-- What a `MetaInfoPath` meta object was built from. -/
inductive MetaSource where
  | fromDir (p : List String)
  | fromFile (f : FileEntry)
deriving DecidableEq

/-- A meta object handed to the external recognizer: its source plus the
type field (explicitly overridden in the hinted branch). -/
structure Meta where
  source : MetaSource
  mtype : Option MediaType
deriving DecidableEq

/-- `LibraryScraper._identify_media`: walk the configured monitored paths;
the first entry the directory is nested under *and* that carries a type
hint wins; otherwise sample the first media file and auto-recognize.
`recognize` is the external `MediaChain.recognize_media`; `inferType` is
the type that `MetaInfoPath` infers for a sampled file. -/
def _identify_media (recognize : Meta → Option MediaInfo)
    (inferType : FileEntry → Option MediaType) (mediaExts : List String) :
    List (List String × Option MediaType) → DirState → Option MediaType × Option MediaInfo
  | [], dir =>
    match dir.files.find? (fun f => mediaExts.contains (pyLower f.suffix)) with
    | none => (none, none)
    | some f => (inferType f, recognize ⟨.fromFile f, inferType f⟩)
  | (base, hint) :: rest, dir =>
    if isRelativeTo dir.path base then
      match hint with
      | some mt => (some mt, recognize ⟨.fromDir dir.path, some mt⟩)
      | none => _identify_media recognize inferType mediaExts rest dir
    else _identify_media recognize inferType mediaExts rest dir

/-- The spec's selector, stated in the spec's words: the first configured
monitored-path entry that the directory is nested under and that has a
type hint. -/
def firstHintedMatch (monitorPaths : List (List String × Option MediaType))
    (p : List String) : Option (List String × Option MediaType) :=
  (monitorPaths.filter (fun e => isRelativeTo p e.1 && e.2.isSome)).head?

/-- `schemas.FileItem` as built by `_scrape_directory`. -/
structure FileItem where
  storage : String
  itemType : String
  path : String
  name : String
  basename : String
  modifyTime : Nat
deriving DecidableEq

/-- `str(directory).replace(chr(92), chr(47)) + chr(47)` for an absolute
component path. -/
def joinPath (p : List String) : String := "/" ++ String.intercalate "/" p ++ "/"

/-- `Path.name` of a directory given as components. -/
def lastComponent (p : List String) : String := p.getLastD ""

/-- `Path.stem`: the final component with its last extension removed. -/
def stemOf (s : String) : String :=
  match s.data with
  | [] => ""
  | c0 :: rest =>
    if rest.contains '.' then
      ⟨c0 :: ((rest.reverse.dropWhile (fun c => !(c == '.'))).drop 1).reverse⟩
    else s

/-- The `FileItem` handed to `scrape_metadata`; `mtime` stands for the
external `directory.stat().st_mtime`. -/
def fileItemOf (dir : DirState) (mtime : Nat) : FileItem :=
  { storage := "local", itemType := "dir", path := joinPath dir.path,
    name := lastComponent dir.path, basename := stemOf (lastComponent dir.path),
    modifyTime := mtime }

/-- External `MediaChain` operations used inside the `try` block of
`_scrape_directory`; each may raise (`Except.error`). -/
structure ExtOps where
  obtainImages : MediaInfo → Except String Unit
  scrapeMetadata : FileItem → MediaInfo → Except String Unit
  mtime : Nat

/-- Outcome of one `_scrape_directory` call. -/
inductive ScrapeOutcome where
  | noMediaInfo
  | scraped (mi : MediaInfo)
  | errorCaught (msg : String)
deriving DecidableEq

/-- The body of `_scrape_directory`'s `try` block: identify, then the two
external calls in order; an exception anywhere aborts the body. -/
def scrapeBody (ops : ExtOps) (recognize : Meta → Option MediaInfo)
    (inferType : FileEntry → Option MediaType) (mediaExts : List String)
    (monitorPaths : List (List String × Option MediaType)) (dir : DirState) :
    Except String ScrapeOutcome :=
  match (_identify_media recognize inferType mediaExts monitorPaths dir).2 with
  | none => .ok .noMediaInfo
  | some mi =>
    match ops.obtainImages mi with
    | .error e => .error e
    | .ok _ =>
      match ops.scrapeMetadata (fileItemOf dir ops.mtime) mi with
      | .error e => .error e
      | .ok _ => .ok (.scraped mi)

/-- `LibraryScraper._scrape_directory`: the body wrapped in
`try ... except Exception`: an error is logged and swallowed. -/
def _scrape_directory (ops : ExtOps) (recognize : Meta → Option MediaInfo)
    (inferType : FileEntry → Option MediaType) (mediaExts : List String)
    (monitorPaths : List (List String × Option MediaType)) (dir : DirState) :
    ScrapeOutcome :=
  match scrapeBody ops recognize inferType mediaExts monitorPaths dir with
  | .ok r => r
  | .error e => .errorCaught e

/-- Result of a full `handle_media_directory` run as seen by the caller. -/
inductive HandleResult where
  | skippedExcluded
  | retryScheduled (delay : Nat)
  | completed (o : ScrapeOutcome)
deriving DecidableEq

/-- The full event-handler path (`handle_media_directory` and everything
below it) in the exception monad; `handle_media_directory` itself installs
no handler, so any exception escaping `_scrape_directory` would surface
here. -/
def handleRun (ops : ExtOps) (recognize : Meta → Option MediaInfo)
    (inferType : FileEntry → Option MediaType) (excl : List (List String))
    (mediaExts : List String) (monitorPaths : List (List String × Option MediaType))
    (dir : DirState) : Except String HandleResult :=
  if _is_excluded excl dir.path then .ok .skippedExcluded
  else if !(_check_files_ready mediaExts dir) then .ok (.retryScheduled 2)
  else .ok (.completed (_scrape_directory ops recognize inferType mediaExts monitorPaths dir))

/-! ### Configuration parsing -/

/-- The type-hint half of one monitored-path line: `strip`, `lower`, then
compare against the two known tags. -/
def parseTypeHint (typePart : String) : Option MediaType :=
  let ts := pyLower (pyStrip typePart)
  if ts == "movie" then some .movie
  else if ts == "tv" then some .tv
  else none

/-- The loop body of `LibraryScraper._parse_path_config` for one raw line;
`existsDir` is the external `path.exists() and path.is_dir()` probe. -/
def parseConfigLine (existsDir : String → Bool) (rawLine : String) :
    Option (String × Option MediaType) :=
  let line := pyStrip rawLine
  if line == "" then none
  else
    let pm :=
      match pySplitFirst '#' line with
      | some (pathPart, typePart) => (pathPart, parseTypeHint typePart)
      | none => (line, (none : Option MediaType))
    let path := pyStrip pm.1
    if existsDir path then some (path, pm.2) else none

/-- `LibraryScraper._parse_path_config`: split the config text on
newlines and keep the valid entries. -/
def _parse_path_config (existsDir : String → Bool) (configStr : String) :
    List (String × Option MediaType) :=
  (splitChar '\n' configStr).filterMap (parseConfigLine existsDir)

end LibraryScraper

namespace SubscribeReminder

/-! ### Data read from the host (`SubscribeOper`, `TmdbChain`, `MediaChain`) -/

/-- One episode record returned by `TmdbChain.tmdb_episodes`. -/
structure Episode where
  episode_number : Nat
  air_date : Option String
deriving DecidableEq

/-- One subscription record; `stype` is the `type` column (TV rows carry
the literal tag `电视剧`). -/
structure Subscription where
  stype : String
  tmdbid : Option Nat
  season : Option Nat
  name : String
  year : String
deriving DecidableEq

/-- The slice of `MediaChain.recognize_media`'s result the notifier reads. -/
structure MovieInfo where
  release_date : String
deriving DecidableEq

/-- A rendered TV block of the digest. -/
structure TvBlock where
  name : String
  season : String
  episode : String
deriving DecidableEq

/-- A rendered movie block of the digest. -/
structure MovieBlock where
  name : String
deriving DecidableEq

/-- The notification handed to `post_message`. -/
structure SentMessage where
  title : String
  text : String
deriving DecidableEq

/-- Python `str(x).rjust(2, '0')`. -/
def rjustTwo (s : String) : String :=
  ⟨List.replicate (2 - s.data.length) '0' ++ s.data⟩

/-- A two-digit zero-padded episode or season number. -/
def padTwo (n : Nat) : String := rjustTwo (toString n)

/-- The inner episode loop of `__send_notify`: the numbers of the episodes
whose air date equals today's date, in list order. -/
def todayEpisodes (today : String) (eps : List Episode) : List Nat :=
  (eps.filter (fun e =>
    match e.air_date with
    | some d => d == today
    | none => false)).map (fun e => e.episode_number)

/-- The TV branch of `__send_notify` for one subscription: `none` when the
subscription contributes no block today, otherwise the rendered block.
`episodesOf` is the external `tmdb_episodes (tmdbid, season)` lookup. -/
def tvEntry (today : String) (episodesOf : Nat → Nat → List Episode)
    (s : Subscription) : Option TvBlock :=
  if s.stype == "电视剧" then
    match s.tmdbid, s.season with
    | some i, some n =>
      let info := episodesOf i n
      if info.isEmpty then none
      else
        match todayEpisodes today info with
        | [] => none
        | e0 :: rest =>
          some { name := s.name ++ " (" ++ s.year ++ ")",
                 season := "S" ++ rjustTwo (toString n),
                 episode :=
                   if rest.isEmpty then "E" ++ padTwo e0
                   else "E" ++ padTwo e0 ++ "-E" ++
                     padTwo ((e0 :: rest).getLast (List.cons_ne_nil e0 rest)) }
    | _, _ => none
  else none

/-- The movie branch of `__send_notify` for one subscription;
`recognizeMovie` is the external `recognize_media (tmdbid, MOVIE)`. -/
def movieEntry (today : String) (recognizeMovie : Nat → Option MovieInfo)
    (s : Subscription) : Option MovieBlock :=
  if s.stype == "电视剧" then none
  else
    match s.tmdbid with
    | none => none
    | some i =>
      match recognizeMovie i with
      | none => none
      | some mi =>
        if mi.release_date == today then some { name := s.name ++ " (" ++ s.year ++ ")" }
        else none

/-- The digest-construction block (the mis-indented trailing loops of the
source, read as evidently intended): append one templated block per TV
entry, then one per movie entry, onto one text accumulator. -/
def digestText (tvs : List TvBlock) (movies : List MovieBlock) : String :=
  movies.foldl (fun acc b => acc ++ "🎬 " ++ b.name ++ "\n" ++ "\n")
    (tvs.foldl (fun acc b =>
      acc ++ "📺 " ++ b.name ++ "\n" ++ "   " ++ b.season ++ "季 " ++ b.episode ++ "集\n" ++ "\n") "")

/-- `SubscribeReminder.__send_notify`: list the subscriptions, build the
two block lists, render the digest, and send it (with a dated title)
exactly when it is non-empty.  `none` means no notification was posted. -/
def __send_notify (today : String) (episodesOf : Nat → Nat → List Episode)
    (recognizeMovie : Nat → Option MovieInfo) (subs : List Subscription) :
    Option SentMessage :=
  if subs.isEmpty then none
  else
    let tvs := subs.filterMap (tvEntry today episodesOf)
    let movies := subs.filterMap (movieEntry today recognizeMovie)
    let text := digestText tvs movies
    if text == "" then none
    else some { title := today ++ "订阅提醒", text := text }

/-! ### `init_plugin` and the cron registration -/

/-- What `init_plugin` leaves behind: the system messages pushed via
`self.systemmessage.put`, and which jobs were registered. -/
structure InitOutcome where
  systemMessages : List String
  cronJobAdded : Bool
  dateJobAdded : Bool
deriving DecidableEq

/-- The crontab string `0 t * * *` built from the send hour. -/
def cronExpr (t : Nat) : String := "0 " ++ toString t ++ " * * *"

/-- `SubscribeReminder.init_plugin`, scheduling part.  `addCronJob` is the
external `scheduler.add_job(..., CronTrigger.from_crontab(cron))` (it may
raise), `addDateJob` the one-shot `add_job(..., 'date')`.  The cron
registration sits in a `try`/`except` that logs and pushes a system
message; the date registration does not. -/
def init_plugin (addCronJob : String → Except String Unit) (addDateJob : Except String Unit)
    (enabled onlyonce : Bool) (timeStr : String) : Except String InitOutcome :=
  if enabled || onlyonce then
    let afterCron : InitOutcome :=
      if pyIsDigit timeStr then
        match addCronJob (cronExpr (pyInt timeStr)) with
        | .ok _ => { systemMessages := [], cronJobAdded := true, dateJobAdded := false }
        | .error err =>
          { systemMessages := ["执行周期配置错误：" ++ err],
            cronJobAdded := false, dateJobAdded := false }
      else { systemMessages := [], cronJobAdded := false, dateJobAdded := false }
    if onlyonce then
      match addDateJob with
      | .error e => .error e
      | .ok _ => .ok { afterCron with dateJobAdded := true }
    else .ok afterCron
  else .ok { systemMessages := [], cronJobAdded := false, dateJobAdded := false }

end SubscribeReminder

open LibraryScraper SubscribeReminder

/-! ## Lemmas about the pending-directory debounce set -/

lemma mem_evictExpired {t : Nat} {st : List (String × Nat)} {e : String × Nat} :
    e ∈ evictExpired t st ↔ e ∈ st ∧ t < e.2 := by
  simp [evictExpired, List.mem_filter]

lemma inPending_eq_true {d : String} {st : List (String × Nat)} :
    inPending d st = true ↔ ∃ e ∈ st, e.1 = d := by
  simp [inPending, List.any_eq_true]

lemma processEvent_true_inv {st : List (String × Nat)} {t : Nat} {d : String}
    (h : (processEvent st t d).2 = true) :
    (processEvent st t d).1 = (d, t + 10) :: evictExpired t st
      ∧ inPending d (evictExpired t st) = false := by
  by_cases hp : inPending d (evictExpired t st)
  · simp [processEvent, hp] at h
  · simp [processEvent, hp]

lemma processEvent_snd_false {st : List (String × Nat)} {t : Nat} {d : String}
    (h : inPending d (evictExpired t st) = true) :
    (processEvent st t d).2 = false := by
  simp [processEvent, h]

lemma processEvent_preserves {st : List (String × Nat)} {t : Nat} {d' d : String} {exp : Nat}
    (hmem : (d, exp) ∈ st) (ht : t < exp)
    (huniq : ∀ e ∈ st, e.1 = d → e.2 = exp) :
    (d, exp) ∈ (processEvent st t d').1
      ∧ ∀ e ∈ (processEvent st t d').1, e.1 = d → e.2 = exp := by
  have hcur : (d, exp) ∈ evictExpired t st := mem_evictExpired.mpr ⟨hmem, ht⟩
  have huniqcur : ∀ e ∈ evictExpired t st, e.1 = d → e.2 = exp :=
    fun e he => huniq e (mem_evictExpired.mp he).1
  by_cases hp : inPending d' (evictExpired t st)
  · simp only [processEvent, hp, if_true]
    exact ⟨hcur, huniqcur⟩
  · simp only [processEvent, hp, if_false, Bool.false_eq_true]
    refine ⟨List.mem_cons_of_mem _ hcur, ?_⟩
    intro e he hed
    rcases List.mem_cons.mp he with rfl | he
    · have hdd : d' = d := hed
      subst hdd
      exact absurd (inPending_eq_true.mpr ⟨(d', exp), hcur, rfl⟩) (by simp [hp])
    · exact huniqcur e he hed

lemma runState_preserves {d : String} {exp : Nat} :
    ∀ (mid : List (Nat × String)) (st : List (String × Nat)),
      (d, exp) ∈ st → (∀ e ∈ st, e.1 = d → e.2 = exp) →
      (∀ p ∈ mid, p.1 < exp) →
      (d, exp) ∈ runState st mid ∧ ∀ e ∈ runState st mid, e.1 = d → e.2 = exp := by
  intro mid
  induction mid with
  | nil => intro st h1 h2 _; exact ⟨h1, h2⟩
  | cons p rest ih =>
    intro st h1 h2 h3
    obtain ⟨t, d'⟩ := p
    have ht : t < exp := h3 (t, d') (List.mem_cons_self _ _)
    have step := @processEvent_preserves st t d' d exp h1 ht h2
    simpa [runState] using
      ih (processEvent st t d').1 step.1 step.2 (fun q hq => h3 q (List.mem_cons_of_mem _ hq))

/-- Claim C1: events on the same directory inside the 10-unit debounce
window cause at most one scrape attempt: if the event at time `ti`
triggered processing, any later event on the same directory at a time
`tj < ti + 10` (with arbitrary interleaved events, all inside the window)
returns immediately, and the eviction timer firing at `ti + 10` removes
the directory from the pending set. -/
theorem debounce_window_single_attempt
    (pre mid : List (Nat × String)) (ti tj : Nat) (d : String)
    (hfirst : (processEvent (runState [] pre) ti d).2 = true)
    (hmid : ∀ p ∈ mid, p.1 < ti + 10)
    (hwin : tj < ti + 10) :
    (processEvent (runState (processEvent (runState [] pre) ti d).1 mid) tj d).2 = false
      ∧ inPending d (evictExpired (ti + 10)
          (runState (processEvent (runState [] pre) ti d).1 mid)) = false := by
  obtain ⟨hres, hnot⟩ := processEvent_true_inv hfirst
  have hmem : (d, ti + 10) ∈ (processEvent (runState [] pre) ti d).1 := by
    rw [hres]; exact List.mem_cons_self _ _
  have huniq : ∀ e ∈ (processEvent (runState [] pre) ti d).1, e.1 = d → e.2 = ti + 10 := by
    rw [hres]
    intro e he hed
    rcases List.mem_cons.mp he with rfl | he
    · rfl
    · exact absurd (inPending_eq_true.mpr ⟨e, he, hed⟩) (by simp [hnot])
  obtain ⟨hmem2, huniq2⟩ := runState_preserves mid _ hmem huniq hmid
  constructor
  · have hpend : inPending d
        (evictExpired tj (runState (processEvent (runState [] pre) ti d).1 mid)) = true :=
      inPending_eq_true.mpr ⟨(d, ti + 10), mem_evictExpired.mpr ⟨hmem2, hwin⟩, rfl⟩
    exact processEvent_snd_false hpend
  · rw [Bool.eq_false_iff]
    intro hcontra
    obtain ⟨e, he, hed⟩ := inPending_eq_true.mp hcontra
    obtain ⟨hest, hlt⟩ := mem_evictExpired.mp he
    have := huniq2 e hest hed
    omega

/-- Witness for C1 at a concrete trace: directory "a" fires at time 0,
an unrelated directory "b" fires at time 3, and a duplicate event on "a"
at time 5 is suppressed. -/
theorem debounce_window_single_attempt_witness :
    (processEvent (runState (processEvent (runState [] []) 0 "a").1 [(3, "b")]) 5 "a").2 = false
      ∧ inPending "a" (evictExpired (0 + 10)
          (runState (processEvent (runState [] []) 0 "a").1 [(3, "b")])) = false :=
  debounce_window_single_attempt [] [(3, "b")] 0 5 "a" (by decide) (by decide) (by decide)

/-! ## Exclusion and the readiness-retry loop -/

lemma _is_excluded_of_mem {excl : List (List String)} {p e : List String}
    (he : e ∈ excl) (hnest : isRelativeTo p e = true) : _is_excluded excl p = true := by
  simp only [_is_excluded, List.any_eq_true]
  exact ⟨e, he, hnest⟩

/-- Claim C2: a directory nested under any configured excluded path is
skipped outright by `handle_media_directory`: no readiness probe result
matters, no scrape happens, and no retry is scheduled. -/
theorem excluded_directory_never_scraped
    (excl : List (List String)) (mediaExts : List String) (dir : DirState)
    (e : List String) (he : e ∈ excl) (hnest : isRelativeTo dir.path e = true) :
    handle_media_directory excl mediaExts dir = HandleAction.skipExcluded := by
  simp [handle_media_directory, _is_excluded_of_mem he hnest]

/-- Witness for C2: `/media/temp/new` under excluded `/media/temp` is
skipped even though its media file is present and readable. -/
theorem excluded_directory_never_scraped_witness :
    handle_media_directory [["media", "temp"]] [".mkv"]
      ⟨["media", "temp", "new"], [⟨".mkv", true, true⟩]⟩ = HandleAction.skipExcluded :=
  excluded_directory_never_scraped [["media", "temp"]] [".mkv"]
    ⟨["media", "temp", "new"], [⟨".mkv", true, true⟩]⟩ ["media", "temp"]
    (by decide) (by decide)

lemma handleChain_reaches (excl : List (List String)) (mediaExts : List String)
    (dirAt : Nat → DirState) :
    ∀ (M k t : Nat),
      (∀ j, j < M →
        handle_media_directory excl mediaExts (dirAt (k + j)) = HandleAction.retryLater 2) →
      handle_media_directory excl mediaExts (dirAt (k + M)) = HandleAction.scrape →
      handleChain excl mediaExts dirAt k t (M + 1) = some (k + M, t + 2 * M) := by
  intro M
  induction M with
  | zero =>
    intro k t _ hs
    simp only [Nat.add_zero] at hs
    simp [handleChain, hs]
  | succ M ih =>
    intro k t hr hs
    have h0 : handle_media_directory excl mediaExts (dirAt k) = HandleAction.retryLater 2 := by
      have := hr 0 (Nat.succ_pos M)
      simpa using this
    have hr' : ∀ j, j < M →
        handle_media_directory excl mediaExts (dirAt (k + 1 + j)) = HandleAction.retryLater 2 := by
      intro j hj
      have h := hr (j + 1) (by omega)
      have he : k + (j + 1) = k + 1 + j := by omega
      rwa [he] at h
    have hs' : handle_media_directory excl mediaExts (dirAt (k + 1 + M)) = HandleAction.scrape := by
      have he : k + (M + 1) = k + 1 + M := by omega
      rwa [he] at hs
    have hrec := ih (k + 1) (t + 2) hr' hs'
    calc handleChain excl mediaExts dirAt k t (M + 1 + 1)
        = handleChain excl mediaExts dirAt (k + 1) (t + 2) (M + 1) := by
          simp [handleChain, h0]
      _ = some (k + 1 + M, t + 2 + 2 * M) := hrec
      _ = some (k + (M + 1), t + 2 * (M + 1)) := by
          simp only [Option.some.injEq, Prod.mk.injEq]
          omega

/-- Claim C3: a non-excluded directory whose readiness probe fails on the
first `N` invocations and succeeds on invocation `N` is rescheduled with a
fixed 2-unit delay on every failing invocation (no cap, no backoff) and is
scraped exactly once, at invocation `N`, i.e. at time `2 * N`. -/
theorem locked_directory_retries_until_ready
    (excl : List (List String)) (mediaExts : List String) (dirAt : Nat → DirState) (N : Nat)
    (hexcl : ∀ k, k ≤ N → _is_excluded excl (dirAt k).path = false)
    (hnotready : ∀ k, k < N → _check_files_ready mediaExts (dirAt k) = false)
    (hready : _check_files_ready mediaExts (dirAt N) = true) :
    handleChain excl mediaExts dirAt 0 0 (N + 1) = some (N, 2 * N)
      ∧ ∀ k, k < N →
          handle_media_directory excl mediaExts (dirAt k) = HandleAction.retryLater 2 := by
  have hretry : ∀ k, k < N →
      handle_media_directory excl mediaExts (dirAt k) = HandleAction.retryLater 2 := by
    intro k hk
    simp [handle_media_directory, hexcl k (le_of_lt hk), hnotready k hk]
  have hscrape : handle_media_directory excl mediaExts (dirAt N) = HandleAction.scrape := by
    simp [handle_media_directory, hexcl N le_rfl, hready]
  refine ⟨?_, hretry⟩
  have h := handleChain_reaches excl mediaExts dirAt N 0 0
    (fun j hj => by simpa using hretry j hj) (by simpa using hscrape)
  simpa using h

/-- Witness for C3: the single media file is unreadable on the first
invocation and readable on the second, so the scrape lands at invocation
1, time 2. -/
theorem locked_directory_retries_until_ready_witness :
    handleChain [] [".mkv"]
        (fun k => if k = 0 then (⟨["m"], [⟨".mkv", true, false⟩]⟩ : DirState)
          else ⟨["m"], [⟨".mkv", true, true⟩]⟩) 0 0 (1 + 1) = some (1, 2 * 1)
      ∧ ∀ k, k < 1 →
          handle_media_directory [] [".mkv"]
            ((fun k => if k = 0 then (⟨["m"], [⟨".mkv", true, false⟩]⟩ : DirState)
              else ⟨["m"], [⟨".mkv", true, true⟩]⟩) k) = HandleAction.retryLater 2 :=
  locked_directory_retries_until_ready [] [".mkv"]
    (fun k => if k = 0 then (⟨["m"], [⟨".mkv", true, false⟩]⟩ : DirState)
      else ⟨["m"], [⟨".mkv", true, true⟩]⟩) 1
    (fun k _ => by rfl)
    (fun k hk => by
      have hk0 : k = 0 := by omega
      subst hk0
      decide)
    (by decide)

/-! ## Media identification -/

lemma identify_of_firstHinted_some (recognize : Meta → Option MediaInfo)
    (inferType : FileEntry → Option MediaType) (mediaExts : List String) (dir : DirState) :
    ∀ (monitorPaths : List (List String × Option MediaType)) (b : List String) (mt : MediaType),
      firstHintedMatch monitorPaths dir.path = some (b, some mt) →
      _identify_media recognize inferType mediaExts monitorPaths dir
        = (some mt, recognize ⟨MetaSource.fromDir dir.path, some mt⟩) := by
  intro monitorPaths
  induction monitorPaths with
  | nil => intro b mt h; simp [firstHintedMatch] at h
  | cons entry rest ih =>
    intro b mt h
    obtain ⟨base, hint⟩ := entry
    by_cases hrel : isRelativeTo dir.path base
    · cases hint with
      | some mt0 =>
        simp only [firstHintedMatch, List.filter_cons, hrel, Option.isSome_some,
          Bool.and_self, if_true, List.head?_cons, Option.some.injEq, Prod.mk.injEq,
          reduceIte] at h
        simp only [_identify_media, hrel, if_true]
        rw [h.2]
      | none =>
        have h' : firstHintedMatch rest dir.path = some (b, some mt) := by
          simpa [firstHintedMatch, List.filter_cons, hrel] using h
        simp only [_identify_media, hrel, if_true]
        exact ih b mt h'
    · have h' : firstHintedMatch rest dir.path = some (b, some mt) := by
        simpa [firstHintedMatch, List.filter_cons, hrel] using h
      simp only [_identify_media, hrel, if_false, Bool.false_eq_true]
      exact ih b mt h'

lemma identify_of_firstHinted_none (recognize : Meta → Option MediaInfo)
    (inferType : FileEntry → Option MediaType) (mediaExts : List String) (dir : DirState) :
    ∀ (monitorPaths : List (List String × Option MediaType)),
      firstHintedMatch monitorPaths dir.path = none →
      _identify_media recognize inferType mediaExts monitorPaths dir
        = _identify_media recognize inferType mediaExts [] dir := by
  intro monitorPaths
  induction monitorPaths with
  | nil => intro _; rfl
  | cons entry rest ih =>
    intro h
    obtain ⟨base, hint⟩ := entry
    by_cases hrel : isRelativeTo dir.path base
    · cases hint with
      | some mt0 =>
        simp [firstHintedMatch, List.filter_cons, hrel] at h
      | none =>
        have h' : firstHintedMatch rest dir.path = none := by
          simpa [firstHintedMatch, List.filter_cons, hrel] using h
        simp only [_identify_media, hrel, if_true]
        exact ih h'
    · have h' : firstHintedMatch rest dir.path = none := by
        simpa [firstHintedMatch, List.filter_cons, hrel] using h
      simp only [_identify_media, hrel, if_false, Bool.false_eq_true]
      exact ih h'

/-- Claim C4: identification uses the type hint of the first configured
monitored path the directory is nested under that carries a hint; with no
such entry it behaves exactly like the unconfigured sampling fallback; and
when the resulting media info is absent, `_scrape_directory` stops with
`noMediaInfo` (log only, no scrape). -/
theorem identify_media_hint_precedence
    (ops : ExtOps) (recognize : Meta → Option MediaInfo)
    (inferType : FileEntry → Option MediaType) (mediaExts : List String)
    (monitorPaths : List (List String × Option MediaType)) (dir : DirState) :
    (∀ (b : List String) (mt : MediaType),
      firstHintedMatch monitorPaths dir.path = some (b, some mt) →
      _identify_media recognize inferType mediaExts monitorPaths dir
        = (some mt, recognize ⟨MetaSource.fromDir dir.path, some mt⟩))
    ∧ (firstHintedMatch monitorPaths dir.path = none →
      _identify_media recognize inferType mediaExts monitorPaths dir
        = _identify_media recognize inferType mediaExts [] dir)
    ∧ ((_identify_media recognize inferType mediaExts monitorPaths dir).2 = none →
      _scrape_directory ops recognize inferType mediaExts monitorPaths dir
        = ScrapeOutcome.noMediaInfo) := by
  refine ⟨identify_of_firstHinted_some recognize inferType mediaExts dir monitorPaths,
    identify_of_firstHinted_none recognize inferType mediaExts dir monitorPaths, ?_⟩
  intro h
  simp [_scrape_directory, scrapeBody, h]

/-- Witness for C4: the first matching monitored path has no hint, the
second has the movie hint and wins; the recognizer returns nothing, so the
scrape stops at `noMediaInfo`. -/
theorem identify_media_hint_precedence_witness :
    (∀ (b : List String) (mt : MediaType),
      firstHintedMatch [(["lib"], none), (["lib", "movies"], some MediaType.movie)]
          (["lib", "movies", "x"] : List String) = some (b, some mt) →
      _identify_media (fun _ => none) (fun _ => none) [".mkv"]
          [(["lib"], none), (["lib", "movies"], some MediaType.movie)]
          ⟨["lib", "movies", "x"], []⟩
        = (some mt, (fun (_ : Meta) => (none : Option MediaInfo))
            ⟨MetaSource.fromDir ["lib", "movies", "x"], some mt⟩))
    ∧ (firstHintedMatch [(["lib"], none), (["lib", "movies"], some MediaType.movie)]
          (["lib", "movies", "x"] : List String) = none →
      _identify_media (fun _ => none) (fun _ => none) [".mkv"]
          [(["lib"], none), (["lib", "movies"], some MediaType.movie)]
          ⟨["lib", "movies", "x"], []⟩
        = _identify_media (fun _ => none) (fun _ => none) [".mkv"] [] ⟨["lib", "movies", "x"], []⟩)
    ∧ ((_identify_media (fun _ => none) (fun _ => none) [".mkv"]
          [(["lib"], none), (["lib", "movies"], some MediaType.movie)]
          ⟨["lib", "movies", "x"], []⟩).2 = none →
      _scrape_directory ⟨fun _ => Except.ok (), fun _ _ => Except.ok (), 0⟩
          (fun _ => none) (fun _ => none) [".mkv"]
          [(["lib"], none), (["lib", "movies"], some MediaType.movie)]
          ⟨["lib", "movies", "x"], []⟩
        = ScrapeOutcome.noMediaInfo) :=
  identify_media_hint_precedence ⟨fun _ => Except.ok (), fun _ _ => Except.ok (), 0⟩
    (fun _ => none) (fun _ => none) [".mkv"]
    [(["lib"], none), (["lib", "movies"], some MediaType.movie)]
    ⟨["lib", "movies", "x"], []⟩

/-! ## Exception handling around the scrape -/

/-- Claim C5: whatever the external fetch-images / scrape-metadata
operations do, an exception inside `_scrape_directory`'s body is caught
and turned into a logged outcome, and the whole event-handler path
terminates without propagating any error. -/
theorem scrape_exceptions_swallowed
    (ops : ExtOps) (recognize : Meta → Option MediaInfo)
    (inferType : FileEntry → Option MediaType) (excl : List (List String))
    (mediaExts : List String) (monitorPaths : List (List String × Option MediaType))
    (dir : DirState) :
    (∀ e, scrapeBody ops recognize inferType mediaExts monitorPaths dir = Except.error e →
      _scrape_directory ops recognize inferType mediaExts monitorPaths dir
        = ScrapeOutcome.errorCaught e)
    ∧ ∃ r, handleRun ops recognize inferType excl mediaExts monitorPaths dir
        = Except.ok r := by
  constructor
  · intro e he
    simp [_scrape_directory, he]
  · by_cases h1 : _is_excluded excl dir.path
    · exact ⟨HandleResult.skippedExcluded, by simp [handleRun, h1]⟩
    · by_cases h2 : _check_files_ready mediaExts dir
      · exact ⟨HandleResult.completed
          (_scrape_directory ops recognize inferType mediaExts monitorPaths dir),
          by simp [handleRun, h1, h2]⟩
      · exact ⟨HandleResult.retryScheduled 2, by simp [handleRun, h1, h2]⟩

/-- Witness for C5: `obtain_images` raises; the error is caught and the
handler still returns normally. -/
theorem scrape_exceptions_swallowed_witness :
    (∀ e, scrapeBody ⟨fun _ => Except.error "boom", fun _ _ => Except.ok (), 0⟩
        (fun _ => some ⟨1⟩) (fun _ => none) [".mkv"] [(["m"], some MediaType.movie)]
        ⟨["m", "x"], []⟩ = Except.error e →
      _scrape_directory ⟨fun _ => Except.error "boom", fun _ _ => Except.ok (), 0⟩
        (fun _ => some ⟨1⟩) (fun _ => none) [".mkv"] [(["m"], some MediaType.movie)]
        ⟨["m", "x"], []⟩ = ScrapeOutcome.errorCaught e)
    ∧ ∃ r, handleRun ⟨fun _ => Except.error "boom", fun _ _ => Except.ok (), 0⟩
        (fun _ => some ⟨1⟩) (fun _ => none) [] [".mkv"] [(["m"], some MediaType.movie)]
        ⟨["m", "x"], []⟩ = Except.ok r :=
  scrape_exceptions_swallowed ⟨fun _ => Except.error "boom", fun _ _ => Except.ok (), 0⟩
    (fun _ => some ⟨1⟩) (fun _ => none) [] [".mkv"] [(["m"], some MediaType.movie)]
    ⟨["m", "x"], []⟩

/-! ## TV block formatting in the daily digest -/

lemma getLast?_range' : ∀ (k a : Nat), (List.range' a (k + 1)).getLast? = some (a + k) := by
  intro k
  induction k with
  | zero => intro a; simp [List.range'_one]
  | succ k ih =>
    intro a
    rw [List.range'_succ, List.range'_succ, List.getLast?_cons_cons, ← List.range'_succ, ih]
    congr 1
    omega

lemma getLast_range' (k a : Nat) (h : List.range' a (k + 1) ≠ []) :
    (List.range' a (k + 1)).getLast h = a + k := by
  have h1 := getLast?_range' k a
  rw [List.getLast?_eq_getLast_of_ne_nil h] at h1
  exact Option.some.inj h1

lemma tvEntry_eq (today : String) (episodesOf : Nat → Nat → List Episode)
    (s : Subscription) (i n : Nat)
    (hty : s.stype = "电视剧") (hid : s.tmdbid = some i) (hse : s.season = some n)
    (hinfo : (episodesOf i n).isEmpty = false)
    (e0 : Nat) (rest : List Nat)
    (heps : todayEpisodes today (episodesOf i n) = e0 :: rest) :
    tvEntry today episodesOf s = some
      { name := s.name ++ " (" ++ s.year ++ ")",
        season := "S" ++ rjustTwo (toString n),
        episode :=
          if rest.isEmpty then "E" ++ padTwo e0
          else "E" ++ padTwo e0 ++ "-E" ++
            padTwo ((e0 :: rest).getLast (List.cons_ne_nil e0 rest)) } := by
  simp [tvEntry, hty, hid, hse, hinfo, heps]

/-- Claim C6: a TV subscription with known id and season whose
today-airing episode numbers form the contiguous run
`a, a+1, ..., a+k` contributes exactly one digest block, whose episode
field is the single `E<a>` when the run has one element and the collapsed
range `E<a>-E<a+k>` otherwise, each number zero-padded to two digits. -/
theorem tv_digest_contiguous_range (today : String) (episodesOf : Nat → Nat → List Episode)
    (s : Subscription) (i n a k : Nat)
    (hty : s.stype = "电视剧") (hid : s.tmdbid = some i) (hse : s.season = some n)
    (hinfo : (episodesOf i n).isEmpty = false)
    (heps : todayEpisodes today (episodesOf i n) = List.range' a (k + 1)) :
    ∃ b : TvBlock,
      List.filterMap (tvEntry today episodesOf) [s] = [b]
        ∧ b.name = s.name ++ " (" ++ s.year ++ ")"
        ∧ b.season = "S" ++ rjustTwo (toString n)
        ∧ b.episode = (if k = 0 then "E" ++ padTwo a
            else "E" ++ padTwo a ++ "-E" ++ padTwo (a + k)) := by
  have hsplit : List.range' a (k + 1) = a :: List.range' (a + 1) k := List.range'_succ a k 1
  have hb := tvEntry_eq today episodesOf s i n hty hid hse hinfo a (List.range' (a + 1) k)
    (by rw [heps, hsplit])
  have hepfield :
      (if (List.range' (a + 1) k).isEmpty then "E" ++ padTwo a
        else "E" ++ padTwo a ++ "-E" ++
          padTwo ((a :: List.range' (a + 1) k).getLast
            (List.cons_ne_nil a (List.range' (a + 1) k))))
      = (if k = 0 then "E" ++ padTwo a
          else "E" ++ padTwo a ++ "-E" ++ padTwo (a + k)) := by
    cases k with
    | zero => rfl
    | succ m =>
      have hne : List.range' (a + 1) (m + 1) ≠ [] := by simp [List.range'_eq_nil]
      have hempty : (List.range' (a + 1) (m + 1)).isEmpty = false := by
        rw [List.range'_succ]; rfl
      have hlast : (a :: List.range' (a + 1) (m + 1)).getLast
          (List.cons_ne_nil a (List.range' (a + 1) (m + 1))) = a + (m + 1) := by
        rw [List.getLast_cons hne, getLast_range' m (a + 1) hne]
        omega
      simp [hempty, hlast]
  rw [hepfield] at hb
  exact ⟨{ name := s.name ++ " (" ++ s.year ++ ")",
           season := "S" ++ rjustTwo (toString n),
           episode := if k = 0 then "E" ++ padTwo a
             else "E" ++ padTwo a ++ "-E" ++ padTwo (a + k) },
    by simp [List.filterMap_cons, hb], rfl, rfl, rfl⟩

/-- Witness for C6: today-airing episodes 3,4,5 collapse to "E03-E05",
and a single episode 7 renders as "E07". -/
theorem tv_digest_contiguous_range_witness :
    (∃ b : TvBlock,
      List.filterMap (tvEntry "2026-02-03"
          (fun _ _ => [⟨3, some "2026-02-03"⟩, ⟨4, some "2026-02-03"⟩, ⟨5, some "2026-02-03"⟩]))
          [⟨"电视剧", some 100, some 2, "Show", "2026"⟩] = [b]
        ∧ b.name = "Show" ++ " (" ++ "2026" ++ ")"
        ∧ b.season = "S" ++ rjustTwo (toString 2)
        ∧ b.episode = (if 2 = 0 then "E" ++ padTwo 3
            else "E" ++ padTwo 3 ++ "-E" ++ padTwo (3 + 2)))
    ∧ (∃ b : TvBlock,
      List.filterMap (tvEntry "2026-02-03" (fun _ _ => [⟨7, some "2026-02-03"⟩]))
          [⟨"电视剧", some 100, some 2, "Show", "2026"⟩] = [b]
        ∧ b.name = "Show" ++ " (" ++ "2026" ++ ")"
        ∧ b.season = "S" ++ rjustTwo (toString 2)
        ∧ b.episode = (if 0 = 0 then "E" ++ padTwo 7
            else "E" ++ padTwo 7 ++ "-E" ++ padTwo (7 + 0))) :=
  ⟨tv_digest_contiguous_range "2026-02-03"
      (fun _ _ => [⟨3, some "2026-02-03"⟩, ⟨4, some "2026-02-03"⟩, ⟨5, some "2026-02-03"⟩])
      ⟨"电视剧", some 100, some 2, "Show", "2026"⟩ 100 2 3 2
      rfl rfl rfl (by decide) (by decide),
    tv_digest_contiguous_range "2026-02-03" (fun _ _ => [⟨7, some "2026-02-03"⟩])
      ⟨"电视剧", some 100, some 2, "Show", "2026"⟩ 100 2 7 0
      rfl rfl rfl (by decide) (by decide)⟩

/-- Claim C9: when more than one episode airs today, the episode field is
always built from the first and last collected numbers only — the middle
of the list (and hence contiguity) is ignored. -/
theorem tv_range_first_last_only (today : String) (episodesOf : Nat → Nat → List Episode)
    (s : Subscription) (i n e0 e1 : Nat) (rest : List Nat)
    (hty : s.stype = "电视剧") (hid : s.tmdbid = some i) (hse : s.season = some n)
    (hinfo : (episodesOf i n).isEmpty = false)
    (heps : todayEpisodes today (episodesOf i n) = e0 :: e1 :: rest) :
    ∃ b : TvBlock,
      List.filterMap (tvEntry today episodesOf) [s] = [b]
        ∧ b.episode = "E" ++ padTwo e0 ++ "-E" ++
            padTwo ((e1 :: rest).getLast (List.cons_ne_nil e1 rest)) := by
  have hb := tvEntry_eq today episodesOf s i n hty hid hse hinfo e0 (e1 :: rest) heps
  have hepfield :
      (if (e1 :: rest).isEmpty then "E" ++ padTwo e0
        else "E" ++ padTwo e0 ++ "-E" ++
          padTwo ((e0 :: e1 :: rest).getLast (List.cons_ne_nil e0 (e1 :: rest))))
      = "E" ++ padTwo e0 ++ "-E" ++ padTwo ((e1 :: rest).getLast (List.cons_ne_nil e1 rest)) := by
    have hlast : (e0 :: e1 :: rest).getLast (List.cons_ne_nil e0 (e1 :: rest))
        = (e1 :: rest).getLast (List.cons_ne_nil e1 rest) :=
      List.getLast_cons (List.cons_ne_nil e1 rest)
    simp [hlast]
  rw [hepfield] at hb
  exact ⟨{ name := s.name ++ " (" ++ s.year ++ ")",
           season := "S" ++ rjustTwo (toString n),
           episode := "E" ++ padTwo e0 ++ "-E" ++
             padTwo ((e1 :: rest).getLast (List.cons_ne_nil e1 rest)) },
    by simp [List.filterMap_cons, hb], rfl⟩

/-- Witness for C9: today-airing episodes [3, 5] (episode 4 airs on a
different day) still render as the range "E03-E05". -/
theorem tv_range_first_last_only_witness :
    ∃ b : TvBlock,
      List.filterMap (tvEntry "2026-02-03"
          (fun _ _ => [⟨3, some "2026-02-03"⟩, ⟨4, some "2026-02-04"⟩, ⟨5, some "2026-02-03"⟩]))
          [⟨"电视剧", some 100, some 2, "Show", "2026"⟩] = [b]
        ∧ b.episode = "E" ++ padTwo 3 ++ "-E" ++
            padTwo (((5 : Nat) :: []).getLast (List.cons_ne_nil 5 [])) :=
  tv_range_first_last_only "2026-02-03"
    (fun _ _ => [⟨3, some "2026-02-03"⟩, ⟨4, some "2026-02-04"⟩, ⟨5, some "2026-02-03"⟩])
    ⟨"电视剧", some 100, some 2, "Show", "2026"⟩ 100 2 3 5 []
    rfl rfl rfl (by decide) (by decide)

/-! ## Sending the digest -/

/-- Claim C7: `__send_notify` posts a notification (whose title is
today's date followed by the fixed tag, and whose text is the digest)
exactly when the rendered digest text is non-empty; in particular, with no
matching subscription the digest is empty and nothing is sent. -/
theorem digest_sent_iff_nonempty (today : String) (episodesOf : Nat → Nat → List Episode)
    (recognizeMovie : Nat → Option MovieInfo) (subs : List Subscription) :
    (∀ m, __send_notify today episodesOf recognizeMovie subs = some m →
      digestText (subs.filterMap (tvEntry today episodesOf))
          (subs.filterMap (movieEntry today recognizeMovie)) ≠ ""
        ∧ m.title = today ++ "订阅提醒"
        ∧ m.text = digestText (subs.filterMap (tvEntry today episodesOf))
            (subs.filterMap (movieEntry today recognizeMovie)))
    ∧ (__send_notify today episodesOf recognizeMovie subs = none →
      digestText (subs.filterMap (tvEntry today episodesOf))
          (subs.filterMap (movieEntry today recognizeMovie)) = "") := by
  constructor
  · intro m hm
    by_cases hsub : subs.isEmpty
    · simp [__send_notify, hsub] at hm
    · have hsub' : subs.isEmpty = false := by simpa using hsub
      by_cases htext : (digestText (subs.filterMap (tvEntry today episodesOf))
          (subs.filterMap (movieEntry today recognizeMovie)) == "") = true
      · simp [__send_notify, hsub', htext] at hm
      · have htext' : (digestText (subs.filterMap (tvEntry today episodesOf))
            (subs.filterMap (movieEntry today recognizeMovie)) == "") = false := by
          simpa using htext
        have hne : digestText (subs.filterMap (tvEntry today episodesOf))
            (subs.filterMap (movieEntry today recognizeMovie)) ≠ "" := by
          intro heq
          rw [heq] at htext'
          simp at htext'
        have hsend : __send_notify today episodesOf recognizeMovie subs
            = some ⟨today ++ "订阅提醒",
                digestText (subs.filterMap (tvEntry today episodesOf))
                  (subs.filterMap (movieEntry today recognizeMovie))⟩ := by
          simp [__send_notify, hsub', htext']
        rw [hsend] at hm
        obtain rfl := Option.some.inj hm
        exact ⟨hne, rfl, rfl⟩
  · intro hm
    by_cases hsub : subs.isEmpty
    · have hnil : subs = [] := by simpa [List.isEmpty_iff] using hsub
      subst hnil
      rfl
    · have hsub' : subs.isEmpty = false := by simpa using hsub
      by_cases htext : (digestText (subs.filterMap (tvEntry today episodesOf))
          (subs.filterMap (movieEntry today recognizeMovie)) == "") = true
      · exact eq_of_beq htext
      · have htext' : (digestText (subs.filterMap (tvEntry today episodesOf))
            (subs.filterMap (movieEntry today recognizeMovie)) == "") = false := by
          simpa using htext
        simp [__send_notify, hsub', htext'] at hm

/-- Witness for C7: a single movie subscription releasing today produces a
non-empty digest with the dated title; formally, the forward implication
applied to the concretely computed sent message. -/
theorem digest_sent_iff_nonempty_witness :
    (∀ m, __send_notify "2026-02-03" (fun _ _ => []) (fun _ => some ⟨"2026-02-03"⟩)
        [⟨"电影", some 5, none, "M", "2020"⟩] = some m →
      digestText (List.filterMap (tvEntry "2026-02-03" (fun _ _ => []))
          [⟨"电影", some 5, none, "M", "2020"⟩])
          (List.filterMap (movieEntry "2026-02-03" (fun _ => some ⟨"2026-02-03"⟩))
            [⟨"电影", some 5, none, "M", "2020"⟩]) ≠ ""
        ∧ m.title = "2026-02-03" ++ "订阅提醒"
        ∧ m.text = digestText (List.filterMap (tvEntry "2026-02-03" (fun _ _ => []))
            [⟨"电影", some 5, none, "M", "2020"⟩])
            (List.filterMap (movieEntry "2026-02-03" (fun _ => some ⟨"2026-02-03"⟩))
              [⟨"电影", some 5, none, "M", "2020"⟩]))
    ∧ (__send_notify "2026-02-03" (fun _ _ => []) (fun _ => some ⟨"2026-02-03"⟩)
        [⟨"电影", some 5, none, "M", "2020"⟩] = none →
      digestText (List.filterMap (tvEntry "2026-02-03" (fun _ _ => []))
          [⟨"电影", some 5, none, "M", "2020"⟩])
          (List.filterMap (movieEntry "2026-02-03" (fun _ => some ⟨"2026-02-03"⟩))
            [⟨"电影", some 5, none, "M", "2020"⟩]) = "") :=
  digest_sent_iff_nonempty "2026-02-03" (fun _ _ => []) (fun _ => some ⟨"2026-02-03"⟩)
    [⟨"电影", some 5, none, "M", "2020"⟩]

/-! ## Cron registration error handling -/

/-- Claim C8: when the configured send hour is numeric but the scheduler
rejects the resulting cron expression, the exception is caught inside
`init_plugin`, reported on the system-message channel, and `init_plugin`
returns normally. -/
theorem cron_rejection_reported (addCronJob : String → Except String Unit)
    (addDateJob : Except String Unit) (enabled onlyonce : Bool) (timeStr : String)
    (err : String)
    (hrun : enabled = true ∨ onlyonce = true)
    (hdigit : pyIsDigit timeStr = true)
    (herr : addCronJob (cronExpr (pyInt timeStr)) = Except.error err)
    (hdate : addDateJob = Except.ok ()) :
    ∃ st : InitOutcome,
      init_plugin addCronJob addDateJob enabled onlyonce timeStr = Except.ok st
        ∧ ("执行周期配置错误：" ++ err) ∈ st.systemMessages
        ∧ st.cronJobAdded = false := by
  have hor : (enabled || onlyonce) = true := by
    rcases hrun with h | h <;> simp [h]
  cases honly : onlyonce with
  | true =>
    refine ⟨⟨["执行周期配置错误：" ++ err], false, true⟩, ?_, by simp, rfl⟩
    rw [honly] at hor
    simp [init_plugin, hor, hdigit, herr, hdate]
  | false =>
    refine ⟨⟨["执行周期配置错误：" ++ err], false, false⟩, ?_, by simp, rfl⟩
    rw [honly] at hor
    simp [init_plugin, hor, hdigit, herr]

/-- Witness for C8: hour "9" with a scheduler that rejects every cron
expression; the error message lands in the system messages. -/
theorem cron_rejection_reported_witness :
    ∃ st : InitOutcome,
      init_plugin (fun _ => Except.error "bad cron") (Except.ok ()) true false "9"
          = Except.ok st
        ∧ ("执行周期配置错误：" ++ "bad cron") ∈ st.systemMessages
        ∧ st.cronJobAdded = false :=
  cron_rejection_reported (fun _ => Except.error "bad cron") (Except.ok ()) true false "9"
    "bad cron" (Or.inl rfl) (by decide) rfl rfl

/-! ## Monitored-path configuration parsing -/

lemma stripLeft_append : ∀ (l1 l2 : List Char),
    stripLeft (l1 ++ l2) = if stripLeft l1 = [] then stripLeft l2 else stripLeft l1 ++ l2 := by
  intro l1
  induction l1 with
  | nil => intro l2; simp [stripLeft]
  | cons c cs ih =>
    intro l2
    by_cases hc : c.isWhitespace
    · simp [stripLeft, hc, ih]
    · simp [stripLeft, hc]

lemma stripLeft_idem : ∀ l : List Char, stripLeft (stripLeft l) = stripLeft l := by
  intro l
  induction l with
  | nil => rfl
  | cons c cs ih =>
    by_cases hc : c.isWhitespace
    · simp [stripLeft, hc, ih]
    · simp [stripLeft, hc]

lemma stripLeft_append_cons_of_not_ws {c : Char} (hc : c.isWhitespace = false)
    (l1 l2 : List Char) :
    stripLeft (l1 ++ c :: l2) = stripLeft l1 ++ c :: l2 := by
  rw [stripLeft_append]
  split
  · rename_i h
    rw [h, List.nil_append]
    simp [stripLeft, hc]
  · rfl

lemma splitFirstAux_eq_none : ∀ (l acc : List Char) (c : Char), c ∉ l →
    splitFirstAux c acc l = none := by
  intro l
  induction l with
  | nil => intro acc c _; rfl
  | cons x xs ih =>
    intro acc c hc
    have hx : ¬(x = c) := fun h => hc (by rw [h]; exact List.mem_cons_self c xs)
    simp only [splitFirstAux, if_neg hx]
    exact ih (x :: acc) c (fun h => hc (List.mem_cons_of_mem x h))

lemma splitFirstAux_eq_some : ∀ (l1 acc : List Char) (c : Char) (l2 : List Char), c ∉ l1 →
    splitFirstAux c acc (l1 ++ c :: l2) = some (acc.reverse ++ l1, l2) := by
  intro l1
  induction l1 with
  | nil =>
    intro acc c l2 _
    simp [splitFirstAux]
  | cons x xs ih =>
    intro acc c l2 hc
    have hx : ¬(x = c) := fun h => hc (by rw [h]; exact List.mem_cons_self c xs)
    simp only [List.cons_append, splitFirstAux, if_neg hx]
    simpa using ih (x :: acc) c l2 (fun h => hc (List.mem_cons_of_mem x h))

lemma splitCharAux_not_mem : ∀ (l acc : List Char) (c : Char), c ∉ l →
    splitCharAux c acc l = [⟨acc.reverse ++ l⟩] := by
  intro l
  induction l with
  | nil => intro acc c _; simp [splitCharAux]
  | cons x xs ih =>
    intro acc c hc
    have hx : ¬(x = c) := fun h => hc (by rw [h]; exact List.mem_cons_self c xs)
    simp only [splitCharAux, if_neg hx]
    rw [ih (x :: acc) c (fun h => hc (List.mem_cons_of_mem x h))]
    simp

lemma pyStrip_hash_line (line p t : String)
    (hdata : line.data = p.data ++ '#' :: t.data)
    (hL : stripLeft p.data = p.data) :
    pyStrip line = ⟨p.data ++ '#' :: (stripLeft t.data.reverse).reverse⟩ := by
  show (⟨stripLeft (stripLeft line.data.reverse).reverse⟩ : String) = _
  congr 1
  rw [hdata, List.reverse_append, List.reverse_cons, List.append_assoc, List.singleton_append,
    stripLeft_append_cons_of_not_ws (by decide), List.reverse_append, List.reverse_cons,
    List.reverse_reverse, List.append_assoc, List.singleton_append,
    stripLeft_append_cons_of_not_ws (by decide), hL]

lemma pyStrip_self (p : String) (hL : stripLeft p.data = p.data)
    (hR : stripLeft p.data.reverse = p.data.reverse) : pyStrip p = p := by
  show (⟨stripLeft (stripLeft p.data.reverse).reverse⟩ : String) = p
  rw [hR, List.reverse_reverse, hL]

lemma pyStrip_rightStripped (t : String) :
    pyStrip ⟨(stripLeft t.data.reverse).reverse⟩ = pyStrip t := by
  show (⟨stripLeft (stripLeft ((stripLeft t.data.reverse).reverse : List Char).reverse).reverse⟩
      : String) = pyStrip t
  rw [List.reverse_reverse, stripLeft_idem]
  rfl

lemma parseConfigLine_hash (existsDir : String → Bool) (line p t : String)
    (hdata : line.data = p.data ++ '#' :: t.data)
    (hL : stripLeft p.data = p.data)
    (hR : stripLeft p.data.reverse = p.data.reverse)
    (hhash : '#' ∉ p.data)
    (hmov : pyLower (pyStrip t) ≠ "movie")
    (htv : pyLower (pyStrip t) ≠ "tv") :
    parseConfigLine existsDir line = if existsDir p then some (p, none) else none := by
  have hstrip := pyStrip_hash_line line p t hdata hL
  have hne2 : ((⟨p.data ++ '#' :: (stripLeft t.data.reverse).reverse⟩ : String) == "") = false := by
    apply beq_eq_false_iff_ne.mpr
    intro h
    have hd := congrArg String.data h
    simp at hd
  have hsplit : pySplitFirst '#' ⟨p.data ++ '#' :: (stripLeft t.data.reverse).reverse⟩
      = some (p, ⟨(stripLeft t.data.reverse).reverse⟩) := by
    show (match splitFirstAux '#' [] (p.data ++ '#' :: (stripLeft t.data.reverse).reverse) with
      | none => none
      | some (a, b) => some (String.mk a, String.mk b)) = _
    rw [splitFirstAux_eq_some p.data [] '#' (stripLeft t.data.reverse).reverse hhash]
    rfl
  have h1 : (pyLower (pyStrip t) == "movie") = false := beq_eq_false_iff_ne.mpr hmov
  have h2 : (pyLower (pyStrip t) == "tv") = false := beq_eq_false_iff_ne.mpr htv
  have hth : parseTypeHint ⟨(stripLeft t.data.reverse).reverse⟩ = none := by
    simp [parseTypeHint, pyStrip_rightStripped t, h1, h2]
  simp only [parseConfigLine, hstrip, hne2, hsplit, hth, Bool.false_eq_true, if_false,
    pyStrip_self p hL hR]

lemma parseConfigLine_plain (existsDir : String → Bool) (p : String)
    (hL : stripLeft p.data = p.data)
    (hR : stripLeft p.data.reverse = p.data.reverse)
    (hhash : '#' ∉ p.data) (hne : p ≠ "") :
    parseConfigLine existsDir p = if existsDir p then some (p, none) else none := by
  have hps : pyStrip p = p := pyStrip_self p hL hR
  have hne2 : (p == "") = false := beq_eq_false_iff_ne.mpr hne
  have hsf : pySplitFirst '#' p = none := by
    show (match splitFirstAux '#' [] p.data with
      | none => none
      | some (a, b) => some (String.mk a, String.mk b)) = _
    rw [splitFirstAux_eq_none p.data [] '#' hhash]
  simp only [parseConfigLine, hps, hne2, hsf, Bool.false_eq_true, if_false]

/-- Claim C10: a configuration line `path#T` whose stripped, lowercased
tag `T` is neither "movie" nor "tv" parses to an entry with no type hint,
exactly as the line `path` without any tag would. -/
theorem unknown_type_tag_parses_as_no_hint (existsDir : String → Bool) (line p t : String)
    (hdata : line.data = p.data ++ '#' :: t.data)
    (hL : stripLeft p.data = p.data)
    (hR : stripLeft p.data.reverse = p.data.reverse)
    (hhash : '#' ∉ p.data) (hne : p ≠ "")
    (hnlp : '\n' ∉ p.data) (hnlt : '\n' ∉ t.data)
    (hmov : pyLower (pyStrip t) ≠ "movie") (htv : pyLower (pyStrip t) ≠ "tv") :
    _parse_path_config existsDir line = (if existsDir p then [(p, none)] else [])
      ∧ _parse_path_config existsDir line = _parse_path_config existsDir p := by
  have hnll : '\n' ∉ line.data := by
    rw [hdata]
    intro h
    rcases List.mem_append.mp h with h | h
    · exact hnlp h
    · rcases List.mem_cons.mp h with h | h
      · exact absurd h (by decide)
      · exact hnlt h
  have hsl : splitChar '\n' line = [line] := by
    show splitCharAux '\n' [] line.data = [line]
    rw [splitCharAux_not_mem line.data [] '\n' hnll]
    rfl
  have hsp : splitChar '\n' p = [p] := by
    show splitCharAux '\n' [] p.data = [p]
    rw [splitCharAux_not_mem p.data [] '\n' hnlp]
    rfl
  have h1 := parseConfigLine_hash existsDir line p t hdata hL hR hhash hmov htv
  have h2 := parseConfigLine_plain existsDir p hL hR hhash hne
  constructor
  · simp only [_parse_path_config, hsl, List.filterMap_cons, List.filterMap_nil, h1]
    by_cases h : existsDir p <;> simp [h]
  · simp only [_parse_path_config, hsl, hsp, List.filterMap_cons, List.filterMap_nil, h1, h2]

/-- Witness for C10: the line "/m#4k" (unknown tag "4k") parses exactly
like the bare line "/m", with no type hint. -/
theorem unknown_type_tag_parses_as_no_hint_witness :
    _parse_path_config (fun _ => true) "/m#4k"
        = (if (fun (_ : String) => true) "/m" then [("/m", (none : Option MediaType))] else [])
      ∧ _parse_path_config (fun _ => true) "/m#4k" = _parse_path_config (fun _ => true) "/m" :=
  unknown_type_tag_parses_as_no_hint (fun _ => true) "/m#4k" "/m" "4k"
    (by decide) (by decide) (by decide) (by decide) (by decide) (by decide) (by decide)
    (by decide) (by decide)
